import Mathlib

/-!
Verification of the incremental constraint-propagation engine of
`projects/space_ship_builder_v5/src/ship.rs` (with the coordinate math of
`projects/space_ship_builder_v3/src/math.rs` and the node-identity type of
`crates/examples/space_ship_builder_v3/src/node.rs`).

The Rust code is shallowly embedded: machine integers are modelled as
`Int`/`Nat` (all quantities handled by the engine stay far below the i32/usize
ranges; Rust `i32` division and remainder are translated as `Int.tdiv` and
`Int.tmod`, bitwise operations on `i32` by an explicit two's-complement model),
vectors (`Vec<_>`) as lists, `HashMap` lookups as total functions, and fallible
operations (`Result`) as `Option`.  The engine is built without
`debug_assertions`, so the debug-only render-node write in `Ship::reset` is
absent.
-/

/-- 3D integer vector, modelling glam's `IVec3` (components are `i32`). -/
structure IVec3 where
  x : Int
  y : Int
  z : Int
deriving DecidableEq, Repr

/-- Componentwise addition (`IVec3 + IVec3`). -/
instance : Add IVec3 := ⟨fun a b => ⟨a.x + b.x, a.y + b.y, a.z + b.z⟩⟩

/-- Componentwise subtraction. -/
instance : Sub IVec3 := ⟨fun a b => ⟨a.x - b.x, a.y - b.y, a.z - b.z⟩⟩

/-- Componentwise multiplication (glam multiplies componentwise). -/
instance : Mul IVec3 := ⟨fun a b => ⟨a.x * b.x, a.y * b.y, a.z * b.z⟩⟩

/-- The zero vector `IVec3::ZERO`. -/
def IVec3.zero : IVec3 := ⟨0, 0, 0⟩

/-- The vector `IVec3::ONE * k`. -/
def IVec3.splat (k : Int) : IVec3 := ⟨k, k, k⟩

/-- Rust `!x` on `i32` (two's-complement bitwise not): `!x = -x - 1`. -/
def intNot (a : Int) : Int := -a - 1

/-- Rust `&` on `i32`: two's-complement bitwise and on unbounded integers
(a negative number `Int.negSucc n` has the bit pattern of the complement
of `n`; clearing the bits of `n` from `m` is `m - (m &&& n)`, since the
bits of `m &&& n` are a subset of the bits of `m`). -/
def intLand : Int → Int → Int
  | Int.ofNat m, Int.ofNat n => Int.ofNat (m &&& n)
  | Int.ofNat m, Int.negSucc n => Int.ofNat (m - (m &&& n))
  | Int.negSucc m, Int.ofNat n => Int.ofNat (n - (n &&& m))
  | Int.negSucc m, Int.negSucc n => Int.negSucc (m ||| n)

/-- Componentwise `&` of two `IVec3` values. -/
def IVec3.land (a b : IVec3) : IVec3 :=
  ⟨intLand a.x b.x, intLand a.y b.y, intLand a.z b.z⟩

/-- Componentwise truncating division by a scalar (Rust `IVec3 / i32`). -/
def IVec3.tdivScalar (a : IVec3) (k : Int) : IVec3 :=
  ⟨a.x.tdiv k, a.y.tdiv k, a.z.tdiv k⟩

/-- Whether `v % 2 == IVec3::ZERO` under Rust's truncating remainder. -/
def IVec3.isEven (v : IVec3) : Bool :=
  (v.x.tmod 2 == 0) && (v.y.tmod 2 == 0) && (v.z.tmod 2 == 0)

/-- Helper for `i32::trailing_zeros`: counts trailing zero bits of a natural
number, with enough fuel; on input `0` it returns the fuel (the bit width). -/
def trailingZerosAux : Nat → Nat → Nat
  | 0, _ => 0
  | fuel + 1, n => if n % 2 == 1 then 0 else trailingZerosAux fuel (n / 2) + 1

/-- Rust `i32::trailing_zeros`, acting on the 32-bit two's-complement
bit pattern of the value. -/
def i32TrailingZeros (a : Int) : Nat :=
  trailingZerosAux 32 (a % (2 ^ 32)).toNat

/-- Row-major flattening of `math.rs`:
`to_1d(pos, max) = pos.z * max.x * max.y + pos.y * max.x + pos.x`
(the `u32` version, on naturals). -/
def to_1d (pos max : Nat × Nat × Nat) : Nat :=
  pos.2.2 * max.1 * max.2.1 + pos.2.1 * max.1 + pos.1

/-- The inverse conversion `to_3d` of `math.rs` (the `u32` version). -/
def to_3d (i : Nat) (max : Nat × Nat × Nat) : Nat × Nat × Nat :=
  let zv := i / (max.1 * max.2.1)
  let i1 := i - zv * max.1 * max.2.1
  let yv := i1 / max.1
  let xv := i1 % max.1
  (xv, yv, zv)

/-- `to_1d_i` of `math.rs` (the `i32` version, on `IVec3`). -/
def to_1d_i (pos max : IVec3) : Int :=
  pos.z * max.x * max.y + pos.y * max.x + pos.x

/-- `to_3d_i` of `math.rs` (the `i32` version, Rust `/` and `%` are
truncating). -/
def to_3d_i (i : Int) (max : IVec3) : IVec3 :=
  let zv := i.tdiv (max.x * max.y)
  let i1 := i - zv * max.x * max.y
  let yv := i1.tdiv max.x
  let xv := i1.tmod max.x
  ⟨xv, yv, zv⟩

/-- `NODE_INDEX_NONE = NodeIndex::MAX` (`usize::MAX`), from `node.rs`. -/
def NODE_INDEX_NONE : Nat := 2 ^ 64 - 1

/-- Modelled from the spec: `BLOCK_INDEX_EMPTY` of the v5 `node.rs` (that file
is not in the sources); the spec reserves one block-index value for "empty"
and the v5 engine comments call it "Air"; chunks are initialised with it.
Its concrete value is irrelevant to the claims; we use `0`. -/
def BLOCK_INDEX_EMPTY : Nat := 0

/-- A node identity: node-shape index plus rotation, from `node.rs`.
The rotation is modelled by its packed `u8` value. -/
structure NodeID where
  index : Nat
  rot : Nat
deriving DecidableEq, Repr

/-- `NodeID::none()`: the reserved "empty" identity. -/
def NodeID.noneID : NodeID := ⟨NODE_INDEX_NONE, 0⟩

/-- `NodeID::is_none()`. -/
def NodeID.is_none (id : NodeID) : Bool := id.index == NODE_INDEX_NONE

/-- The packed `u32` produced by `impl Into<u32> for NodeID`:
`0` for the empty identity, otherwise `(index as u32) << 7 + rot`. -/
def NodeID.toBits (id : NodeID) : Nat :=
  if id.is_none then 0 else ((id.index % 2 ^ 32) * 2 ^ 7 + id.rot) % 2 ^ 32

/-- Modelled from the spec: the external `index_queue::IndexQueue` crate —
an ordered FIFO of ids with membership testing, where pushing an
already-queued id is a no-op ("three FIFO sets with O(1) membership
testing — ... — deduplicated (pushing an already-queued id is a no-op)").
The list holds the queue front-first. -/
structure IndexQueue where
  elems : List Nat
deriving DecidableEq, Repr

/-- Membership test of `IndexQueue`. -/
def IndexQueue.containsIdx (q : IndexQueue) (i : Nat) : Bool :=
  q.elems.contains i

/-- `IndexQueue::push_back`: no-op when the id is already queued. -/
def IndexQueue.push_back (q : IndexQueue) (i : Nat) : IndexQueue :=
  if q.containsIdx i then q else ⟨q.elems ++ [i]⟩

/-- `IndexQueue::pop_front`, returning the popped id and the remaining
queue; `none` when the queue is empty. -/
def IndexQueue.pop_front (q : IndexQueue) : Option (Nat × IndexQueue) :=
  match q.elems with
  | [] => Option.none
  | i :: rest => Option.some (i, ⟨rest⟩)

/-- `IndexQueue::is_empty`. -/
def IndexQueue.is_empty (q : IndexQueue) : Bool := q.elems.isEmpty

/-- The empty queue (`IndexQueue::default()`). -/
def IndexQueue.emptyQ : IndexQueue := ⟨[]⟩

/-- The rule library consumed by the v5 engine (`rules.rs` is not under the
sources; the shape of every field is fixed by its uses in `ship.rs`):
`affected_by_block` is indexed by block index; `affected_by_node` is a
`HashMap<NodeID, Vec<IVec3>>`, modelled as a total function;
`map_rules_index_to_node_id`, `block_rules` and `node_rules` run in parallel
(they are zipped in `Ship::propergate_node_world_index`): for each rules
index there are the candidate identity, a list of block requirements (each an
offset/block-index list with a priority) and a list of node requirements
(each an offset with the list of allowed neighbor identities). -/
structure Rules where
  affected_by_block : List (List IVec3)
  affected_by_node : NodeID → List IVec3
  map_rules_index_to_node_id : List NodeID
  block_rules : List (List (List (IVec3 × Nat) × Nat))
  node_rules : List (List (IVec3 × List NodeID))

/-- One chunk of the ship (`ShipChunk`): block grid, per-cell admissible
sets (`None` = not yet computed), packed identity bits and render-occupancy
flags (`RenderNode(bool)`). -/
structure ShipChunk where
  pos : IVec3
  blocks : List Nat
  nodes : List (Option (List (NodeID × Nat)))
  node_id_bits : List Nat
  render_nodes : List Bool
deriving DecidableEq, Repr

/-- A placeholder chunk used as the default of out-of-range list reads
(the Rust code never indexes out of range in the modelled scenarios). -/
def ShipChunk.dummy : ShipChunk := ⟨IVec3.zero, [], [], [], []⟩

/-- The engine state (`Ship` of `ship.rs`). -/
structure Ship where
  chunks : List ShipChunk
  blocks_per_chunk : IVec3
  nodes_per_chunk : IVec3
  chunk_pos_mask : IVec3
  chunk_voxel_size : IVec3
  in_chunk_pos_mask : IVec3
  node_index_bits : Nat
  node_index_mask : Nat
  to_reset : IndexQueue
  was_reset : IndexQueue
  to_propergate : IndexQueue
  to_collapse : IndexQueue
deriving Repr

/-- `Ship::block_length`. -/
def Ship.block_length (s : Ship) : Nat :=
  (s.blocks_per_chunk.x * s.blocks_per_chunk.y * s.blocks_per_chunk.z).toNat

/-- `Ship::node_length`. -/
def Ship.node_length (s : Ship) : Nat :=
  (s.nodes_per_chunk.x * s.nodes_per_chunk.y * s.nodes_per_chunk.z).toNat

/-- `Ship::node_size_plus_padding`. -/
def Ship.node_size_plus_padding (s : Ship) : IVec3 :=
  s.nodes_per_chunk + IVec3.splat 2

/-- `Ship::node_length_plus_padding`. -/
def Ship.node_length_plus_padding (s : Ship) : Nat :=
  (s.node_size_plus_padding.x * s.node_size_plus_padding.y *
    s.node_size_plus_padding.z).toNat

/-- `Ship::add_chunk`. -/
def Ship.add_chunk (s : Ship) (chunk_pos : IVec3) : Ship :=
  { s with chunks := s.chunks ++ [{
      pos := chunk_pos
      blocks := List.replicate s.block_length BLOCK_INDEX_EMPTY
      nodes := List.replicate s.node_length Option.none
      node_id_bits := List.replicate s.node_length 0
      render_nodes := List.replicate s.node_length_plus_padding false }] }

/-- `Ship::new(node_size)` (the unused `rules` argument is dropped; the
commented-out initial `place_block` is absent in the source). -/
def Ship.new (node_size : Int) : Ship :=
  let ship0 : Ship := {
    chunks := []
    blocks_per_chunk := (IVec3.splat node_size).tdivScalar 2
    nodes_per_chunk := IVec3.splat node_size
    chunk_pos_mask := IVec3.splat (intNot (node_size - 1))
    chunk_voxel_size := IVec3.splat node_size
    in_chunk_pos_mask := IVec3.splat (node_size - 1)
    node_index_bits := i32TrailingZeros (node_size * node_size * node_size) + 1
    node_index_mask := (node_size * node_size * node_size - 1).toNat
    to_reset := IndexQueue.emptyQ
    was_reset := IndexQueue.emptyQ
    to_propergate := IndexQueue.emptyQ
    to_collapse := IndexQueue.emptyQ }
  ship0.add_chunk IVec3.zero

/-- `Ship::has_chunk`: the v5 engine hard-codes a single chunk at the
origin. -/
def Ship.has_chunk (_s : Ship) (chunk_pos : IVec3) : Bool :=
  chunk_pos == IVec3.zero

/-- `Ship::get_chunk_pos`: per-chunk bit mask, then one chunk size is
subtracted on every negative component. -/
def Ship.get_chunk_pos (s : Ship) (pos : IVec3) : IVec3 :=
  pos.land s.chunk_pos_mask -
    s.chunk_voxel_size *
      ⟨if pos.x < 0 then 1 else 0, if pos.y < 0 then 1 else 0,
        if pos.z < 0 then 1 else 0⟩

/-- `Ship::get_chunk_index`: `none` models the `bail!("Chunk not found!")`
bounds error. -/
def Ship.get_chunk_index (s : Ship) (pos : IVec3) : Option Nat :=
  if s.has_chunk (s.get_chunk_pos pos) then Option.some 0 else Option.none

/-- `Ship::get_node_pos_from_block_pos`. -/
def Ship.get_node_pos_from_block_pos (_s : Ship) (pos : IVec3) : IVec3 :=
  pos * IVec3.splat 2

/-- `Ship::get_in_chunk_pos`. -/
def Ship.get_in_chunk_pos (s : Ship) (pos : IVec3) : IVec3 :=
  pos.land s.in_chunk_pos_mask

/-- `Ship::get_block_index`. -/
def Ship.get_block_index (s : Ship) (pos : IVec3) : Nat :=
  (to_1d_i ((s.get_in_chunk_pos pos).tdivScalar 2) s.blocks_per_chunk).toNat

/-- `Ship::get_node_index`. -/
def Ship.get_node_index (s : Ship) (pos : IVec3) : Nat :=
  (to_1d_i (s.get_in_chunk_pos pos) s.nodes_per_chunk).toNat

/-- `Ship::to_world_node_index`. -/
def Ship.to_world_node_index (s : Ship) (chunk_index node_index : Nat) : Nat :=
  node_index + (chunk_index <<< s.node_index_bits)

/-- `Ship::from_world_node_index`. -/
def Ship.from_world_node_index (s : Ship) (w : Nat) : Nat × Nat :=
  (w >>> s.node_index_bits, w &&& s.node_index_mask)

/-- `Ship::pos_from_world_node_index`. -/
def Ship.pos_from_world_node_index (s : Ship) (chunk_index node_index : Nat) :
    IVec3 :=
  (s.chunks.getD chunk_index ShipChunk.dummy).pos +
    to_3d_i (Int.ofNat node_index) s.nodes_per_chunk

/-- `Ship::node_index_to_node_index_plus_padding`. -/
def Ship.node_index_to_node_index_plus_padding (s : Ship) (node_index : Nat) :
    Nat :=
  (to_1d_i (to_3d_i (Int.ofNat node_index) s.nodes_per_chunk + IVec3.splat 1)
    s.node_size_plus_padding).toNat

/-- Replaces chunk `ci` by `f` applied to it (the Rust code mutates
`self.chunks[ci]` in place). -/
def Ship.update_chunk (s : Ship) (ci : Nat) (f : ShipChunk → ShipChunk) :
    Ship :=
  { s with chunks := s.chunks.set ci (f (s.chunks.getD ci ShipChunk.dummy)) }

/-- One block-requirement atom of `Ship::propergate_node_world_index`: the
block at `test_pos` must equal `id`; a position in a chunk that does not
exist "is always Air". -/
def Ship.block_req_atom (s : Ship) (test_pos : IVec3) (id : Nat) : Bool :=
  match s.get_chunk_index test_pos with
  | Option.none => id == BLOCK_INDEX_EMPTY
  | Option.some ci =>
      id == (s.chunks.getD ci ShipChunk.dummy).blocks.getD
        (s.get_block_index test_pos) BLOCK_INDEX_EMPTY

/-- One block requirement (`for (req, prio) in block_reqs` body): atoms whose
test position is not aligned to the block grid are skipped; the requirement
holds when at least one check was performed and all performed checks
succeeded. -/
def Ship.block_req_check (s : Ship) (pos : IVec3) (req : List (IVec3 × Nat)) :
    Bool :=
  let aligned := req.filter (fun a => (pos + a.1).isEven)
  !aligned.isEmpty && aligned.all (fun a => s.block_req_atom (pos + a.1) a.2)

/-- The block-requirement loop: the first requirement in list order that
checks out wins (`break`), yielding its priority (`max(0, prio) = prio`). -/
def Ship.block_req_find (s : Ship) (pos : IVec3)
    (block_reqs : List (List (IVec3 × Nat) × Nat)) : Option Nat :=
  (block_reqs.find? (fun rp => s.block_req_check pos rp.1)).map
    (fun rp => rp.2)

/-- One node requirement (`for (offset, ids) in node_req` body): out-of-chunk
neighbors satisfy it iff the allowed list holds the empty identity; in reset
mode (`reset_nodes`) and for neighbors with uncomputed admissible sets it is
satisfied; otherwise the neighbor's stored list must meet the allowed list. -/
def Ship.node_req_check (s : Ship) (reset_nodes : Bool) (pos : IVec3)
    (nr : IVec3 × List NodeID) : Bool :=
  let test_pos := pos + nr.1
  match s.get_chunk_index test_pos with
  | Option.none => nr.2.any (fun n => n.is_none)
  | Option.some ci =>
      match (s.chunks.getD ci ShipChunk.dummy).nodes.getD
          (s.get_node_index test_pos) Option.none with
      | Option.none => true
      | Option.some test_ids =>
          if reset_nodes then true
          else test_ids.any (fun t => nr.2.contains t.1)

/-- `Ship::propergate_node_world_index`: recomputes the admissible set of
the cell at `node_world_index` from the rule library (`reset_nodes` selects
the permissive reset mode). -/
def Ship.propergate_node_world_index (s : Ship) (rules : Rules)
    (node_world_index : Nat) (reset_nodes : Bool) : List (NodeID × Nat) :=
  let cn := s.from_world_node_index node_world_index
  let pos := s.pos_from_world_node_index cn.1 cn.2
  ((rules.map_rules_index_to_node_id.zip rules.block_rules).zip
      rules.node_rules).foldl
    (fun acc e =>
      match s.block_req_find pos e.1.2 with
      | Option.none => acc
      | Option.some block_prio =>
          if e.2.all (fun nr => s.node_req_check reset_nodes pos nr) then
            acc ++ [(e.1.1, block_prio)]
          else acc)
    []

/-- The `push_neigbors` closure of `Ship::reset`: pushes every in-chunk
affected-by neighbor of `node_id` to the reset queue when it is not in the
was-reset set, else to the propagate queue (the pair threads the two
queues). -/
def Ship.push_neigbors_reset (s : Ship) (rules : Rules) (pos : IVec3)
    (node_id : NodeID) (qs : IndexQueue × IndexQueue) :
    IndexQueue × IndexQueue :=
  (rules.affected_by_node node_id).foldl
    (fun q off =>
      match s.get_chunk_index (pos + off) with
      | Option.none => q
      | Option.some ci =>
          let w := s.to_world_node_index ci (s.get_node_index (pos + off))
          if s.was_reset.containsIdx w then (q.1, q.2.push_back w)
          else (q.1.push_back w, q.2))
    qs

/-- `Ship::reset` (one reset queue operation), built without
`debug_assertions` so the debug render-node write is absent. -/
def Ship.reset (s : Ship) (rules : Rules) : Ship :=
  match s.to_reset.pop_front with
  | Option.none => s
  | Option.some (w, rest) =>
      let cn := s.from_world_node_index w
      let pos := s.pos_from_world_node_index cn.1 cn.2
      let new_ids := s.propergate_node_world_index rules w true
      let old_ids :=
        ((s.chunks.getD cn.1 ShipChunk.dummy).nodes.getD cn.2
          Option.none).getD []
      if new_ids ≠ old_ids then
        let qs := (old_ids ++ new_ids).foldl
          (fun q e => s.push_neigbors_reset rules pos e.1 q)
          (rest, s.to_propergate)
        let s1 := s.update_chunk cn.1 (fun c =>
          { c with
              node_id_bits := c.node_id_bits.set cn.2 NodeID.noneID.toBits
              nodes := c.nodes.set cn.2 (Option.some new_ids) })
        { s1 with
            to_reset := qs.1
            was_reset := s.was_reset.push_back w
            to_propergate := qs.2.push_back w
            to_collapse := s.to_collapse.push_back w }
      else
        let s1 := s.update_chunk cn.1 (fun c =>
          { c with nodes := c.nodes.set cn.2 (Option.some new_ids) })
        { s1 with to_reset := rest }

/-- The `push_neigbors` closure of `Ship::propergate`: every in-chunk
affected-by neighbor goes to the propagate queue. -/
def Ship.push_neigbors_prop (s : Ship) (rules : Rules) (pos : IVec3)
    (node_id : NodeID) (q : IndexQueue) : IndexQueue :=
  (rules.affected_by_node node_id).foldl
    (fun q off =>
      match s.get_chunk_index (pos + off) with
      | Option.none => q
      | Option.some ci =>
          q.push_back (s.to_world_node_index ci (s.get_node_index (pos + off))))
    q

/-- `Ship::propergate` (one propagate queue operation). -/
def Ship.propergate (s : Ship) (rules : Rules) : Ship :=
  match s.to_propergate.pop_front with
  | Option.none => s
  | Option.some (w, rest) =>
      let cn := s.from_world_node_index w
      let pos := s.pos_from_world_node_index cn.1 cn.2
      let new_ids := s.propergate_node_world_index rules w false
      let old_ids :=
        ((s.chunks.getD cn.1 ShipChunk.dummy).nodes.getD cn.2
          Option.none).getD []
      if old_ids ≠ new_ids then
        let q := (old_ids ++ new_ids).foldl
          (fun q e => s.push_neigbors_prop rules pos e.1 q) rest
        let s1 := s.update_chunk cn.1 (fun c =>
          { c with nodes := c.nodes.set cn.2 (Option.some new_ids) })
        { s1 with
            to_propergate := q
            to_collapse := s.to_collapse.push_back w }
      else
        let s1 := s.update_chunk cn.1 (fun c =>
          { c with nodes := c.nodes.set cn.2 (Option.some new_ids) })
        { s1 with to_propergate := rest }

/-- The selection step of `Ship::collapse`:
`max_by(|(_, prio1), (_, prio2)| prio1.cmp(prio2))` keeps the later element
on ties (Rust's `max_by` returns the last maximum), and the empty list
falls back to `(NodeID::none(), 0)` (`unwrap_or`). -/
def collapse_pick (possible : List (NodeID × Nat)) : NodeID × Nat :=
  match possible with
  | [] => (NodeID.noneID, 0)
  | x :: xs => xs.foldl (fun acc e => if acc.2 > e.2 then acc else e) x

/-- `Ship::collapse` (one collapse queue operation). -/
def Ship.collapse (s : Ship) : Ship :=
  match s.to_collapse.pop_front with
  | Option.none => s
  | Option.some (w, rest) =>
      let cn := s.from_world_node_index w
      let nipp := s.node_index_to_node_index_plus_padding cn.2
      let possible :=
        ((s.chunks.getD cn.1 ShipChunk.dummy).nodes.getD cn.2
          Option.none).getD []
      let chosen := collapse_pick possible
      let s1 := s.update_chunk cn.1 (fun c =>
        { c with
            node_id_bits := c.node_id_bits.set cn.2 chosen.1.toBits
            render_nodes := c.render_nodes.set nipp (!chosen.1.is_none)
            nodes := c.nodes.set cn.2 (Option.some possible) })
      { s1 with to_collapse := rest }

/-- The body of `Ship::tick`: up to the given budget of iterations, each one
taking a reset entry if any, else a propagate entry, else a collapse entry
(recording chunk 0 as changed), else returning `false` early; returns the
final state, the more-work flag and the changed chunks. -/
def Ship.tick_loop (rules : Rules) :
    Nat → Ship → List Nat → Ship × Bool × List Nat
  | 0, s, changed => (s, true, changed)
  | n + 1, s, changed =>
      if s.to_reset.is_empty = false then
        Ship.tick_loop rules n (s.reset rules) changed
      else if s.to_propergate.is_empty = false then
        Ship.tick_loop rules n (s.propergate rules) changed
      else if s.to_collapse.is_empty = false then
        Ship.tick_loop rules n s.collapse [0]
      else (s, false, changed)

/-- `Ship::tick(actions_per_tick, rules)`. -/
def Ship.tick (s : Ship) (actions_per_tick : Nat) (rules : Rules) :
    Ship × Bool × List Nat :=
  Ship.tick_loop rules actions_per_tick s []

/-- The `push_reset` closure of `Ship::place_block`: for a non-empty block
index, pushes the in-chunk affected-by cells of that block onto the reset
queue; the empty block index contributes nothing. -/
def Ship.push_block_affected (s : Ship) (rules : Rules) (block_index : Nat)
    (pos : IVec3) (q : IndexQueue) : IndexQueue :=
  if block_index == BLOCK_INDEX_EMPTY then q
  else
    (rules.affected_by_block.getD block_index []).foldl
      (fun q off =>
        match s.get_chunk_index (pos + off) with
        | Option.none => q
        | Option.some ci =>
            q.push_back (s.to_world_node_index ci
              (s.get_node_index (pos + off))))
      q

/-- `Ship::place_block`: `none` models the bounds error (`Err`); otherwise
the updated ship is returned (`Ok(())` with `self` mutated). -/
def Ship.place_block (s : Ship) (block_pos : IVec3) (block_index : Nat)
    (rules : Rules) : Option Ship :=
  let pos := s.get_node_pos_from_block_pos block_pos
  match s.get_chunk_index pos with
  | Option.none => Option.none
  | Option.some chunk_index =>
      let in_chunk_block_index := s.get_block_index pos
      let old_block_index :=
        (s.chunks.getD chunk_index ShipChunk.dummy).blocks.getD
          in_chunk_block_index BLOCK_INDEX_EMPTY
      if old_block_index == block_index then Option.some s
      else
        let s1 := s.update_chunk chunk_index (fun c =>
          { c with blocks := c.blocks.set in_chunk_block_index block_index })
        let q1 := s1.push_block_affected rules old_block_index pos s1.to_reset
        let q2 := s1.push_block_affected rules block_index pos q1
        Option.some { s1 with to_reset := q2, was_reset := IndexQueue.emptyQ }

/-! Specification-side definitions, used to state the claims against the
embedded operations above. -/

/-- Floor-division chunk position: each component floored to a multiple of
the chunk size 32 (what claim C8 asserts `get_chunk_pos` computes). -/
def chunk_pos_floor (p : IVec3) : IVec3 :=
  ⟨32 * p.x.fdiv 32, 32 * p.y.fdiv 32, 32 * p.z.fdiv 32⟩

/-- What `get_chunk_pos` actually computes for chunk size 32: the floored
multiple of 32, with one extra chunk size subtracted on every negative
component. -/
def chunk_pos_code (p : IVec3) : IVec3 :=
  ⟨32 * p.x.fdiv 32 - (if p.x < 0 then 32 else 0),
   32 * p.y.fdiv 32 - (if p.y < 0 then 32 else 0),
   32 * p.z.fdiv 32 - (if p.z < 0 then 32 else 0)⟩

/-- The world node indices of the in-chunk affected-by neighbors of one
node identity around `pos` (offsets whose target lies in no known chunk are
dropped). -/
def neighbor_indices (s : Ship) (rules : Rules) (pos : IVec3)
    (node_id : NodeID) : List Nat :=
  (rules.affected_by_node node_id).filterMap (fun off =>
    match s.get_chunk_index (pos + off) with
    | Option.none => Option.none
    | Option.some ci =>
        Option.some (s.to_world_node_index ci (s.get_node_index (pos + off))))

/-- The world node indices of the in-chunk affected-by neighbors of every
identity in a candidate list. -/
def affected_world_indices (s : Ship) (rules : Rules) (pos : IVec3)
    (ids : List (NodeID × Nat)) : List Nat :=
  ids.flatMap (fun e => neighbor_indices s rules pos e.1)

/-- Routing of reset-detected changes: each affected world index goes to
the propagate queue when the was-reset set records it, else to the reset
queue (the pair is reset/propagate). -/
def route_pushes (was : IndexQueue) (ws : List Nat) (qr qp : IndexQueue) :
    IndexQueue × IndexQueue :=
  ws.foldl
    (fun q w =>
      if was.containsIdx w then (q.1, q.2.push_back w)
      else (q.1.push_back w, q.2))
    (qr, qp)

/-- Pushes a list of world indices onto one queue in order. -/
def push_list (q : IndexQueue) (ws : List Nat) : IndexQueue :=
  ws.foldl IndexQueue.push_back q

/-- The in-chunk affected-by cells contributed by one block index in
`place_block`; the empty block index contributes nothing. -/
def block_affected_indices (s : Ship) (rules : Rules) (block_index : Nat)
    (pos : IVec3) : List Nat :=
  if block_index == BLOCK_INDEX_EMPTY then []
  else
    (rules.affected_by_block.getD block_index []).filterMap (fun off =>
      match s.get_chunk_index (pos + off) with
      | Option.none => Option.none
      | Option.some ci =>
          Option.some (s.to_world_node_index ci
            (s.get_node_index (pos + off))))

/-- The block index used by requirement evaluation at a position: the stored
block, or the empty block for positions outside every known chunk. -/
def block_at_or_empty (s : Ship) (test_pos : IVec3) : Nat :=
  match s.get_chunk_index test_pos with
  | Option.none => BLOCK_INDEX_EMPTY
  | Option.some ci =>
      (s.chunks.getD ci ShipChunk.dummy).blocks.getD
        (s.get_block_index test_pos) BLOCK_INDEX_EMPTY

/-- Strict (propagate-mode) node-requirement semantics, as the code
evaluates it: an out-of-chunk neighbor satisfies the requirement exactly
when the allowed list holds the empty identity; an in-chunk neighbor with an
uncomputed admissible set always satisfies it; a computed neighbor satisfies
it exactly when its stored candidates meet the allowed list. -/
def node_req_spec_strict (s : Ship) (pos : IVec3) (nr : IVec3 × List NodeID) :
    Bool :=
  match s.get_chunk_index (pos + nr.1) with
  | Option.none => nr.2.any (fun n => n.is_none)
  | Option.some ci =>
      match (s.chunks.getD ci ShipChunk.dummy).nodes.getD
          (s.get_node_index (pos + nr.1)) Option.none with
      | Option.none => true
      | Option.some test_ids => test_ids.any (fun t => nr.2.contains t.1)

/-- All three work queues are empty. -/
def allQueuesEmpty (s : Ship) : Bool :=
  s.to_reset.is_empty && s.to_propergate.is_empty && s.to_collapse.is_empty

/-- One queue operation, in the strict priority order of `Ship::tick`:
reset before propagate before collapse (identity when all queues are
empty). -/
def Ship.tick_step (s : Ship) (rules : Rules) : Ship :=
  if s.to_reset.is_empty = false then s.reset rules
  else if s.to_propergate.is_empty = false then s.propergate rules
  else if s.to_collapse.is_empty = false then s.collapse
  else s

/-- Iterates `tick_step` a given number of times. -/
def iterSteps (rules : Rules) : Nat → Ship → Ship
  | 0, s => s
  | n + 1, s => iterSteps rules n (s.tick_step rules)

/-- Whether, within the given budget of operations, a state with all queues
empty is observed. -/
def drainedWithin (rules : Rules) : Nat → Ship → Bool
  | 0, _ => false
  | n + 1, s =>
      if allQueuesEmpty s then true
      else drainedWithin rules n (s.tick_step rules)

/-- The number of queue operations `tick` executes within the given
budget. -/
def opsUsed (rules : Rules) : Nat → Ship → Nat
  | 0, _ => 0
  | n + 1, s =>
      if allQueuesEmpty s then 0
      else opsUsed rules n (s.tick_step rules) + 1

/-- Whether at least one of the operations executed within the given budget
is a collapse operation. -/
def collapseOpsRan (rules : Rules) : Nat → Ship → Bool
  | 0, _ => false
  | n + 1, s =>
      if s.to_reset.is_empty = false then
        collapseOpsRan rules n (s.reset rules)
      else if s.to_propergate.is_empty = false then
        collapseOpsRan rules n (s.propergate rules)
      else if s.to_collapse.is_empty = false then true
      else false

/-! Concrete rule libraries and engine states used by the counterexamples
and witnesses.  Every `ex` state is built with chunk size 2 (`Ship::new` is
generic in `node_size`; 2 gives one block cell and eight node cells per
chunk), and the `exShip` chain below reaches its states by running the
public API from a fresh ship. -/

/-- A non-empty candidate identity. -/
def exNodeA : NodeID := ⟨5, 0⟩

/-- A second candidate identity. -/
def exNodeB : NodeID := ⟨6, 0⟩

/-- A one-candidate rule library: `exNodeA` requires block 1 at its own
(even) position, has no node requirements, and has no affected-by
neighbors; block 1 affects only the cell at its own position. -/
def exRules : Rules := {
  affected_by_block := [[], [⟨0, 0, 0⟩]]
  affected_by_node := fun _ => []
  map_rules_index_to_node_id := [exNodeA]
  block_rules := [[([(⟨0, 0, 0⟩, 1)], 1)]]
  node_rules := [[]] }

/-- A fresh ship of chunk size 2. -/
def exShip0 : Ship := Ship.new 2

/-- After `place_block((0,0,0), 1)`. -/
def exShip1 : Ship := (exShip0.place_block ⟨0, 0, 0⟩ 1 exRules).getD exShip0

/-- After the queued reset operation. -/
def exShip2 : Ship := exShip1.reset exRules

/-- After the queued propagate operation. -/
def exShip3 : Ship := exShip2.propergate exRules

/-- After the queued collapse operation: cell 0 resolves to `exNodeA`, whose
packed bits are 640. -/
def exShip4 : Ship := exShip3.collapse

/-- After `place_block((0,0,0), 0)`, reverting the edit. -/
def exShip5 : Ship := (exShip4.place_block ⟨0, 0, 0⟩ 0 exRules).getD exShip4

/-- After the reset triggered by the revert: the admissible set of cell 0
changes from one candidate to none, so reset clears the identity bits. -/
def exShip6 : Ship := exShip5.reset exRules

/-- Rule library for the collapse counterexample: every identity has one
affected-by neighbor, at offset `(0,0,1)`. -/
def exRulesCollapse : Rules := {
  affected_by_block := []
  affected_by_node := fun _ => [⟨0, 0, 1⟩]
  map_rules_index_to_node_id := []
  block_rules := []
  node_rules := [] }

/-- A ship whose cell 0 stores the admissible set `[(exNodeA, 3)]` and whose
collapse queue holds cell 0; its identity bits are still 0 (empty). -/
def exShipCollapse : Ship :=
  { exShip0 with
      chunks := [{ (exShip0.chunks.getD 0 ShipChunk.dummy) with
        nodes := Option.some [(exNodeA, 3)] :: List.replicate 7 Option.none }]
      to_collapse := ⟨[0]⟩ }

/-- Rule library for the strict-mode counterexample: candidate `exNodeA`
requires block 1 at its own position and requires the neighbor at offset
`(0,0,1)` to admit `exNodeB`. -/
def exRulesStrict : Rules := {
  affected_by_block := [[], [⟨0, 0, 0⟩]]
  affected_by_node := fun _ => []
  map_rules_index_to_node_id := [exNodeA]
  block_rules := [[([(⟨0, 0, 0⟩, 1)], 1)]]
  node_rules := [[(⟨0, 0, 1⟩, [exNodeB])]] }

/-- A ship holding block 1 whose node cells are all uncomputed and whose
was-reset set is empty. -/
def exShipStrict : Ship :=
  { exShip0 with
      chunks := [{ (exShip0.chunks.getD 0 ShipChunk.dummy) with
        blocks := [1] }] }

/-- Rule library for the place-block counterexample: the empty block index 0
has a non-empty affected-by set (its own position), block 1 affects
nothing. -/
def exRulesPlace : Rules := {
  affected_by_block := [[⟨0, 0, 0⟩], []]
  affected_by_node := fun _ => []
  map_rules_index_to_node_id := []
  block_rules := []
  node_rules := [] }

/-- A ship whose collapse queue holds exactly one entry and whose other
queues are empty. -/
def exShipTick : Ship := { exShip0 with to_collapse := ⟨[0]⟩ }

/-! Helper lemmas: arithmetic facts about the bit-level coordinate math,
generic fold/list lemmas, and the characterization of the collapse
selection fold. -/

/-- Clearing the low `k` bits of a natural number floors it to a multiple
of `2 ^ k`. -/
theorem sub_and_two_pow_sub_one (m k : Nat) :
    m - (m &&& (2 ^ k - 1)) = 2 ^ k * (m / 2 ^ k) := by
  rw [Nat.and_pow_two_sub_one_eq_mod]
  have := Nat.div_add_mod m (2 ^ k)
  omega

/-- Setting the low `k` bits of a natural number. -/
theorem lor_two_pow_sub_one (m k : Nat) :
    m ||| (2 ^ k - 1) = 2 ^ k * (m / 2 ^ k) + (2 ^ k - 1) := by
  rw [Nat.mul_add_lt_is_or (Nat.sub_lt (Nat.two_pow_pos k) Nat.one_pos)]
  apply Nat.eq_of_testBit_eq
  intro i
  rw [Nat.testBit_lor, Nat.testBit_lor, Nat.testBit_two_pow_sub_one,
    Nat.testBit_mul_pow_two, ← Nat.shiftRight_eq_div_pow, Nat.testBit_shiftRight]
  by_cases h : i < k
  · simp [h]
  · have hk : k ≤ i := Nat.le_of_not_lt h
    simp [h, hk, Nat.add_sub_cancel' hk]

/-- Masking an integer with the two's-complement pattern `-(2 ^ k)` floors
it to a multiple of `2 ^ k` (floor division, also on negatives). -/
theorem intLand_neg_two_pow (p : Int) (k : Nat) :
    intLand p (Int.negSucc (2 ^ k - 1)) = 2 ^ k * p.fdiv (2 ^ k) := by
  have hc : ((2 : Int)) ^ k = Int.ofNat (2 ^ k) := by
    rw [Int.ofNat_eq_coe]
    push_cast
    ring
  cases p with
  | ofNat m =>
      show Int.ofNat (m - (m &&& (2 ^ k - 1))) = _
      rw [sub_and_two_pow_sub_one, hc]
      simp only [Int.ofNat_eq_coe]
      rw [← Int.ofNat_fdiv]
      push_cast
      ring
  | negSucc m =>
      show Int.negSucc (m ||| (2 ^ k - 1)) = _
      rw [lor_two_pow_sub_one]
      have hp : (2 : Nat) ^ k = Nat.succ (2 ^ k - 1) := by
        have := Nat.two_pow_pos k
        omega
      have h2 : (Int.negSucc m).fdiv ((2 : Int) ^ k) =
          Int.negSucc (m / 2 ^ k) := by
        rw [hc, hp]
        rfl
      rw [h2, Int.negSucc_eq, Int.negSucc_eq]
      have h1 : (1 : Nat) ≤ 2 ^ k := Nat.one_le_two_pow
      push_cast [Nat.cast_sub h1]
      ring

/-- Unfolding of componentwise subtraction. -/
theorem IVec3.sub_def (a b : IVec3) :
    a - b = ⟨a.x - b.x, a.y - b.y, a.z - b.z⟩ := rfl

/-- Unfolding of componentwise multiplication. -/
theorem IVec3.mul_def (a b : IVec3) :
    a * b = ⟨a.x * b.x, a.y * b.y, a.z * b.z⟩ := rfl

/-- Unfolding of componentwise addition. -/
theorem IVec3.add_def (a b : IVec3) :
    a + b = ⟨a.x + b.x, a.y + b.y, a.z + b.z⟩ := rfl

/-- One component of `get_chunk_pos` for chunk size 32. -/
theorem chunk_comp_32 (a : Int) :
    intLand a (-32) - 32 * (if a < 0 then 1 else 0) =
      32 * a.fdiv 32 - (if a < 0 then 32 else 0) := by
  have h : (-32 : Int) = Int.negSucc (2 ^ 5 - 1) := by decide
  rw [h, intLand_neg_two_pow]
  norm_num

/-- Two folds with pointwise-equal step functions agree. -/
theorem foldl_fun_congr {α γ : Type} (g1 g2 : γ → α → γ)
    (h : ∀ acc a, g1 acc a = g2 acc a) :
    ∀ (l : List α) (init : γ), l.foldl g1 init = l.foldl g2 init := by
  intro l
  induction l with
  | nil => intro init; rfl
  | cons a t ih =>
      intro init
      simp only [List.foldl_cons, h init a, ih]

/-- Folding over a `filterMap` equals folding over the original list while
skipping the elements mapped to `none`. -/
theorem foldl_filterMap_option {α β γ : Type} (f : α → Option β)
    (g : γ → β → γ) :
    ∀ (l : List α) (init : γ),
      (l.filterMap f).foldl g init =
        l.foldl (fun acc a =>
          match f a with
          | Option.none => acc
          | Option.some b => g acc b) init := by
  intro l
  induction l with
  | nil => intro init; rfl
  | cons a t ih =>
      intro init
      cases hfa : f a with
      | none => simp [List.filterMap_cons, hfa, ih]
      | some b => simp [List.filterMap_cons, hfa, ih]

/-- Folding over a flattened list equals the nested fold. -/
theorem foldl_flatMap {α β γ : Type} (f : α → List β) (g : γ → β → γ) :
    ∀ (l : List α) (init : γ),
      (l.flatMap f).foldl g init =
        l.foldl (fun acc a => (f a).foldl g acc) init := by
  intro l
  induction l with
  | nil => intro init; rfl
  | cons a t ih =>
      intro init
      simp only [List.flatMap_cons, List.foldl_append, List.foldl_cons, ih]

/-- The neighbor-push loop of `Ship::reset` routes the flattened in-chunk
affected list between the reset and propagate queues by was-reset
membership. -/
theorem push_neigbors_reset_eq (s : Ship) (rules : Rules) (pos : IVec3)
    (node_id : NodeID) (qs : IndexQueue × IndexQueue) :
    s.push_neigbors_reset rules pos node_id qs =
      route_pushes s.was_reset (neighbor_indices s rules pos node_id)
        qs.1 qs.2 := by
  unfold Ship.push_neigbors_reset route_pushes neighbor_indices
  rw [foldl_filterMap_option]
  rw [Prod.mk.eta]
  apply foldl_fun_congr
  intro acc off
  cases hc : s.get_chunk_index (pos + off) with
  | none => simp
  | some ci => simp

/-- The double loop of `Ship::reset` over old and new candidate identities
equals routing the flattened affected-by list. -/
theorem reset_requeue_eq (s : Ship) (rules : Rules) (pos : IVec3)
    (ids : List (NodeID × Nat)) (qr qp : IndexQueue) :
    ids.foldl (fun q e => s.push_neigbors_reset rules pos e.1 q) (qr, qp) =
      route_pushes s.was_reset (affected_world_indices s rules pos ids)
        qr qp := by
  unfold affected_world_indices route_pushes
  rw [foldl_flatMap]
  apply foldl_fun_congr
  intro acc e
  rw [push_neigbors_reset_eq]
  unfold route_pushes
  rw [Prod.mk.eta]

/-- The `push_reset` closure of `Ship::place_block` pushes exactly the
in-chunk affected cells of a non-empty block index, in order. -/
theorem push_block_affected_eq (s : Ship) (rules : Rules) (block_index : Nat)
    (pos : IVec3) (q : IndexQueue) :
    s.push_block_affected rules block_index pos q =
      push_list q (block_affected_indices s rules block_index pos) := by
  unfold Ship.push_block_affected block_affected_indices push_list
  by_cases hb : (block_index == BLOCK_INDEX_EMPTY) = true
  · rw [if_pos hb, if_pos hb]
    rfl
  · rw [if_neg hb, if_neg hb]
    rw [foldl_filterMap_option]
    apply foldl_fun_congr
    intro acc off
    cases hc : s.get_chunk_index (pos + off) with
    | none => simp
    | some ci => simp

/-- Mapping a projection over a list after updating one entry with a
projection-preserving function leaves the mapped list unchanged. -/
theorem map_set_preserve {α β : Type} (f : α → β) (g : α → α)
    (hg : ∀ x, f (g x) = f x) :
    ∀ (l : List α) (i : Nat) (d : α),
      (l.set i (g (l.getD i d))).map f = l.map f := by
  intro l
  induction l with
  | nil => intro i d; rfl
  | cons a t ih =>
      intro i d
      cases i with
      | zero => simp [hg]
      | succ n =>
          show f a :: List.map f (t.set n (g (t.getD n d))) = f a :: List.map f t
          rw [ih]

/-- One unfolding step of the collapse selection fold. -/
theorem collapse_pick_cons_cons (x e : NodeID × Nat)
    (rest : List (NodeID × Nat)) :
    collapse_pick (x :: e :: rest) =
      collapse_pick ((if x.2 > e.2 then x else e) :: rest) := rfl

/-- The collapse selection fold picks an element such that everything before
it has priority at most its own and everything after it has strictly
smaller priority — the last maximum of the list. -/
theorem collapse_pick_split_aux (xs : List (NodeID × Nat)) :
    ∀ x : NodeID × Nat, ∃ l1 l2,
      x :: xs = l1 ++ collapse_pick (x :: xs) :: l2 ∧
      (∀ e ∈ l1, e.2 ≤ (collapse_pick (x :: xs)).2) ∧
      (∀ e ∈ l2, e.2 < (collapse_pick (x :: xs)).2) := by
  induction xs with
  | nil =>
      intro x
      exact ⟨[], [], rfl, by simp, by simp⟩
  | cons e rest ih =>
      intro x
      rw [collapse_pick_cons_cons]
      by_cases hxe : x.2 > e.2
      · rw [if_pos hxe]
        obtain ⟨a1, a2, hsplit, h1, h2⟩ := ih x
        set c := collapse_pick (x :: rest) with hc
        cases a1 with
        | nil =>
            have hcx : c = x := ((List.cons.injEq _ _ _ _).mp hsplit).1.symm
            have hrest : rest = a2 := ((List.cons.injEq _ _ _ _).mp hsplit).2
            refine ⟨[], e :: rest, by simp [hcx], by simp, ?_⟩
            intro f hf
            rcases List.mem_cons.mp hf with hfe | hfr
            · rw [hfe, hcx]
              exact hxe
            · rw [hrest] at hfr
              exact h2 f hfr
        | cons a a1t =>
            simp only [List.cons_append] at hsplit
            have ha : a = x := ((List.cons.injEq _ _ _ _).mp hsplit).1.symm
            have hrest : rest = a1t ++ c :: a2 :=
              ((List.cons.injEq _ _ _ _).mp hsplit).2
            have hx_le : x.2 ≤ c.2 := by
              have := h1 a (List.mem_cons_self a a1t)
              rw [ha] at this
              exact this
            refine ⟨x :: e :: a1t, a2, ?_, ?_, h2⟩
            · rw [hrest]
              simp
            · intro f hf
              rcases List.mem_cons.mp hf with hfx | hf2
              · rw [hfx]
                exact hx_le
              · rcases List.mem_cons.mp hf2 with hfe | hft
                · rw [hfe]
                  exact Nat.le_trans (Nat.le_of_lt hxe) hx_le
                · exact h1 f (List.mem_cons_of_mem a hft)
      · rw [if_neg hxe]
        have hxe2 : x.2 ≤ e.2 := Nat.le_of_not_lt hxe
        obtain ⟨a1, a2, hsplit, h1, h2⟩ := ih e
        set c := collapse_pick (e :: rest) with hc
        cases a1 with
        | nil =>
            have hce : c = e := ((List.cons.injEq _ _ _ _).mp hsplit).1.symm
            have hrest : rest = a2 := ((List.cons.injEq _ _ _ _).mp hsplit).2
            refine ⟨[x], rest, by simp [hce], ?_, ?_⟩
            · intro f hf
              rw [List.mem_singleton.mp hf, hce]
              exact hxe2
            · intro f hf
              rw [hrest] at hf
              exact h2 f hf
        | cons a a1t =>
            simp only [List.cons_append] at hsplit
            have ha : a = e := ((List.cons.injEq _ _ _ _).mp hsplit).1.symm
            have hrest : rest = a1t ++ c :: a2 :=
              ((List.cons.injEq _ _ _ _).mp hsplit).2
            have he_le : e.2 ≤ c.2 := by
              have := h1 a (List.mem_cons_self a a1t)
              rw [ha] at this
              exact this
            refine ⟨x :: e :: a1t, a2, ?_, ?_, h2⟩
            · rw [hrest]
              simp
            · intro f hf
              rcases List.mem_cons.mp hf with hfx | hf2
              · rw [hfx]
                exact Nat.le_trans hxe2 he_le
              · rcases List.mem_cons.mp hf2 with hfe | hft
                · rw [hfe]
                  exact he_le
                · exact h1 f (List.mem_cons_of_mem a hft)

/-- The split characterization of `collapse_pick` for non-empty lists. -/
theorem collapse_pick_split (l : List (NodeID × Nat)) (h : l ≠ []) :
    ∃ l1 l2,
      l = l1 ++ collapse_pick l :: l2 ∧
      (∀ e ∈ l1, e.2 ≤ (collapse_pick l).2) ∧
      (∀ e ∈ l2, e.2 < (collapse_pick l).2) := by
  cases l with
  | nil => exact absurd rfl h
  | cons x xs => exact collapse_pick_split_aux xs x

/-- The selected candidate is one of the stored candidates. -/
theorem collapse_pick_mem (l : List (NodeID × Nat)) (h : l ≠ []) :
    collapse_pick l ∈ l := by
  obtain ⟨l1, l2, hsplit, _, _⟩ := collapse_pick_split l h
  have hmem : collapse_pick l ∈ l1 ++ collapse_pick l :: l2 :=
    List.mem_append_right l1 (List.mem_cons_self _ _)
  rw [← hsplit] at hmem
  exact hmem

/-- The selected candidate has maximal priority. -/
theorem collapse_pick_max (l : List (NodeID × Nat)) (h : l ≠ []) :
    ∀ e ∈ l, e.2 ≤ (collapse_pick l).2 := by
  obtain ⟨l1, l2, hsplit, h1, h2⟩ := collapse_pick_split l h
  intro e he
  rw [hsplit] at he
  rcases List.mem_append.mp he with he1 | he2
  · exact h1 e he1
  · rcases List.mem_cons.mp he2 with heq | he3
    · rw [heq]
    · exact Nat.le_of_lt (h2 e he3)


/-- The ship state after `tick_loop` is the iterate of `tick_step`, the
number of iterations being `opsUsed`. -/
theorem tick_loop_state (rules : Rules) :
    ∀ (n : Nat) (s : Ship) (ch : List Nat),
      (Ship.tick_loop rules n s ch).1 = iterSteps rules (opsUsed rules n s) s := by
  intro n
  induction n with
  | zero => intro s ch; rfl
  | succ n ih =>
      intro s ch
      by_cases h1 : s.to_reset.is_empty
      · by_cases h2 : s.to_propergate.is_empty
        · by_cases h3 : s.to_collapse.is_empty
          · simp [Ship.tick_loop, opsUsed, allQueuesEmpty, h1, h2, h3, iterSteps]
          · simp [Ship.tick_loop, opsUsed, allQueuesEmpty, h1, h2, h3, iterSteps,
              Ship.tick_step, ih]
        · simp [Ship.tick_loop, opsUsed, allQueuesEmpty, h1, h2, iterSteps,
            Ship.tick_step, ih]
      · simp [Ship.tick_loop, opsUsed, allQueuesEmpty, h1, iterSteps,
          Ship.tick_step, ih]

/-- `tick` never executes more operations than its budget. -/
theorem opsUsed_le (rules : Rules) :
    ∀ (n : Nat) (s : Ship), opsUsed rules n s ≤ n := by
  intro n
  induction n with
  | zero => intro s; exact Nat.le_refl 0
  | succ n ih =>
      intro s
      by_cases h : allQueuesEmpty s
      · simp [opsUsed, h]
      · simp only [opsUsed, if_neg h]
        exact Nat.succ_le_succ (ih _)

/-- The more-work flag of `tick_loop` is the negation of "an all-empty
state was observed within the budget". -/
theorem tick_loop_more (rules : Rules) :
    ∀ (n : Nat) (s : Ship) (ch : List Nat),
      (Ship.tick_loop rules n s ch).2.1 = !drainedWithin rules n s := by
  intro n
  induction n with
  | zero => intro s ch; rfl
  | succ n ih =>
      intro s ch
      by_cases h1 : s.to_reset.is_empty
      · by_cases h2 : s.to_propergate.is_empty
        · by_cases h3 : s.to_collapse.is_empty
          · simp [Ship.tick_loop, drainedWithin, allQueuesEmpty, h1, h2, h3]
          · simp [Ship.tick_loop, drainedWithin, allQueuesEmpty, h1, h2, h3,
              Ship.tick_step, ih]
        · simp [Ship.tick_loop, drainedWithin, allQueuesEmpty, h1, h2,
            Ship.tick_step, ih]
      · simp [Ship.tick_loop, drainedWithin, allQueuesEmpty, h1,
          Ship.tick_step, ih]

/-- The changed-chunks result of `tick_loop` is `[0]` as soon as one
collapse operation ran, else the accumulator. -/
theorem tick_loop_changed (rules : Rules) :
    ∀ (n : Nat) (s : Ship) (ch : List Nat),
      (Ship.tick_loop rules n s ch).2.2 =
        if collapseOpsRan rules n s then [0] else ch := by
  intro n
  induction n with
  | zero => intro s ch; rfl
  | succ n ih =>
      intro s ch
      by_cases h1 : s.to_reset.is_empty
      · by_cases h2 : s.to_propergate.is_empty
        · by_cases h3 : s.to_collapse.is_empty
          · simp [Ship.tick_loop, collapseOpsRan, h1, h2, h3]
          · simp [Ship.tick_loop, collapseOpsRan, h1, h2, h3, ih]
        · simp [Ship.tick_loop, collapseOpsRan, h1, h2, ih]
      · simp [Ship.tick_loop, collapseOpsRan, h1, ih]

/-- On a fully drained ship, `tick_loop` is a no-op returning `false`
(except with budget 0, where the loop body never runs and `true` is
returned). -/
theorem tick_loop_empty (rules : Rules) :
    ∀ (n : Nat) (s : Ship) (ch : List Nat), allQueuesEmpty s = true →
      Ship.tick_loop rules n s ch = (s, n == 0, ch) := by
  intro n
  cases n with
  | zero => intro s ch _; rfl
  | succ n =>
      intro s ch h
      simp only [allQueuesEmpty, Bool.and_eq_true] at h
      simp [Ship.tick_loop, h.1.1, h.1.2, h.2]


/-! Claim theorems. -/

/-- Claim C1 (amended): `Ship::collapse` pops one cell from the collapse
queue, selects from its stored admissible set the maximum-priority candidate
(the last one in list order on ties; the empty set yields the empty identity
with minimum priority 0), writes the packed identity bits and the
render-occupancy flag (occupied iff the chosen identity is not empty), and
restores the stored set — but it pushes no neighbors onto any queue, even
when the winning identity differs from the previously resolved one: all
queues other than the popped collapse queue are left unchanged. -/
theorem collapse_characterization (s : Ship) (w : Nat) (rest : IndexQueue)
    (h : s.to_collapse.pop_front = Option.some (w, rest)) :
    let cn := s.from_world_node_index w
    let stored :=
      ((s.chunks.getD cn.1 ShipChunk.dummy).nodes.getD cn.2 Option.none).getD []
    let chosen := collapse_pick stored
    s.collapse.to_collapse = rest ∧
    s.collapse.to_reset = s.to_reset ∧
    s.collapse.to_propergate = s.to_propergate ∧
    s.collapse.was_reset = s.was_reset ∧
    s.collapse.chunks = s.chunks.set cn.1
      { (s.chunks.getD cn.1 ShipChunk.dummy) with
          node_id_bits :=
            (s.chunks.getD cn.1 ShipChunk.dummy).node_id_bits.set cn.2
              chosen.1.toBits
          render_nodes :=
            (s.chunks.getD cn.1 ShipChunk.dummy).render_nodes.set
              (s.node_index_to_node_index_plus_padding cn.2) (!chosen.1.is_none)
          nodes :=
            (s.chunks.getD cn.1 ShipChunk.dummy).nodes.set cn.2
              (Option.some stored) } ∧
    (stored = [] → chosen = (NodeID.noneID, 0)) ∧
    (stored ≠ [] → chosen ∈ stored ∧ ∀ e ∈ stored, e.2 ≤ chosen.2) := by
  intro cn stored chosen
  unfold Ship.collapse
  rw [h]
  refine ⟨rfl, rfl, rfl, rfl, rfl, ?_, ?_⟩
  · intro hempty
    rw [show chosen = collapse_pick stored from rfl, hempty]
    rfl
  · intro hne
    exact ⟨collapse_pick_mem stored hne, collapse_pick_max stored hne⟩

/-- Witness for C1: collapsing the concrete ship whose cell 0 stores one
candidate leaves the other queues untouched. -/
theorem collapse_characterization_witness :
    exShipCollapse.collapse.to_collapse = IndexQueue.mk [] ∧
    exShipCollapse.collapse.to_reset = exShipCollapse.to_reset ∧
    (exShipCollapse.chunks.getD 0 ShipChunk.dummy).nodes.getD 0 Option.none =
      Option.some [(exNodeA, 3)] := by
  have h := collapse_characterization exShipCollapse 0 ⟨[]⟩ (by decide)
  exact ⟨h.1, h.2.1, by decide⟩

/-- Counterexample for C1 as stated: on `exShipCollapse` the winning
identity (packed bits 640) differs from the previously resolved identity
(bits 0), the winner's affected-by set holds the in-chunk neighbor at offset
`(0,0,1)`, and yet collapse leaves every queue empty — no neighbor is pushed
onto the collapse queue. -/
theorem collapse_requeues_no_neighbors :
    (exShipCollapse.chunks.getD 0 ShipChunk.dummy).node_id_bits.getD 0 99 = 0 ∧
    (exShipCollapse.collapse.chunks.getD 0
      ShipChunk.dummy).node_id_bits.getD 0 99 = 640 ∧
    exRulesCollapse.affected_by_node exNodeA = [⟨0, 0, 1⟩] ∧
    exShipCollapse.get_chunk_index (⟨0, 0, 0⟩ + ⟨0, 0, 1⟩) = Option.some 0 ∧
    exShipCollapse.collapse.to_collapse = IndexQueue.mk [] ∧
    exShipCollapse.collapse.to_reset = IndexQueue.mk [] ∧
    exShipCollapse.collapse.to_propergate = IndexQueue.mk [] :=
  ⟨by decide, by decide, by decide, by decide, by decide, by decide, by decide⟩

/-- Claim C2 (amended): `tick(b)` executes at most `b` queue operations, each
one a `tick_step` (reset when the reset queue is non-empty, else propagate,
else collapse), stopping early exactly when a state with all three queues
empty is observed; the returned boolean is false iff such a state was
observed within the budget (so it is true when the last budgeted operation
empties all queues, and true for budget 0); the changed chunks are `[0]`
iff at least one collapse operation ran, else empty; when all queues are
empty at entry, the state is unchanged, no collapse write happens and no
chunk is reported changed. -/
theorem tick_contract (rules : Rules) (b : Nat) (s : Ship) :
    (s.tick b rules).1 = iterSteps rules (opsUsed rules b s) s ∧
    opsUsed rules b s ≤ b ∧
    (s.tick b rules).2.1 = !drainedWithin rules b s ∧
    (s.tick b rules).2.2 = (if collapseOpsRan rules b s then [0] else []) ∧
    (allQueuesEmpty s = true → s.tick b rules = (s, b == 0, [])) :=
  ⟨tick_loop_state rules b s [], opsUsed_le rules b s,
    tick_loop_more rules b s [], tick_loop_changed rules b s [],
    fun h => tick_loop_empty rules b s [] h⟩

/-- Witness for C2: a tick on a fully drained ship changes nothing and
reports no work. -/
theorem tick_contract_witness :
    exShip0.tick 1 exRules = (exShip0, false, []) ∧
    opsUsed exRules 1 exShip0 ≤ 1 := by
  have h := tick_contract exRules 1 exShip0
  exact ⟨h.2.2.2.2 (by decide), h.2.1⟩

/-- Counterexample for C2 as stated: with exactly one queued collapse entry
and budget 1, tick returns `true` although all three queues are empty when
it returns, refuting "the returned boolean is true iff at least one of the
three queues is still non-empty when tick returns". -/
theorem tick_true_with_empty_queues :
    (exShipTick.tick 1 exRules).2.1 = true ∧
    allQueuesEmpty (exShipTick.tick 1 exRules).1 = true ∧
    (exShipTick.tick 1 exRules).2.2 = [0] :=
  ⟨by decide, by decide, by decide⟩

/-- Claim C3 (confirmed): `Ship::reset` pops one cell from the reset queue
and recomputes its admissible set in permissive reset mode (in-chunk node
requirements always pass — the final conjunct; the recompute is
`propergate_node_world_index` with `reset_nodes = true`).  When the
recomputed list differs from the previously stored one (compared as lists),
every in-chunk affected-by neighbor of every identity in the old or new set
is pushed to the reset queue if the was-reset set does not record it, else
to the propagate queue; the cell's identity bits are cleared to the packed
empty value; the cell is recorded in was-reset and pushed onto both the
propagate and the collapse queue.  The new set is stored either way. -/
theorem reset_contract (s : Ship) (rules : Rules) (w : Nat) (rest : IndexQueue)
    (h : s.to_reset.pop_front = Option.some (w, rest)) :
    let cn := s.from_world_node_index w
    let pos := s.pos_from_world_node_index cn.1 cn.2
    let new_ids := s.propergate_node_world_index rules w true
    let old_ids :=
      ((s.chunks.getD cn.1 ShipChunk.dummy).nodes.getD cn.2 Option.none).getD []
    let qs := route_pushes s.was_reset
      (affected_world_indices s rules pos (old_ids ++ new_ids)) rest
      s.to_propergate
    (new_ids ≠ old_ids →
      s.reset rules =
        { (s.update_chunk cn.1 (fun c =>
            { c with
                node_id_bits := c.node_id_bits.set cn.2 NodeID.noneID.toBits
                nodes := c.nodes.set cn.2 (Option.some new_ids) })) with
            to_reset := qs.1
            was_reset := s.was_reset.push_back w
            to_propergate := qs.2.push_back w
            to_collapse := s.to_collapse.push_back w }) ∧
    (new_ids = old_ids →
      s.reset rules =
        { (s.update_chunk cn.1 (fun c =>
            { c with nodes := c.nodes.set cn.2 (Option.some new_ids) })) with
            to_reset := rest }) ∧
    (∀ (s2 : Ship) (pos2 : IVec3) (nr : IVec3 × List NodeID) (ci : Nat),
      s2.get_chunk_index (pos2 + nr.1) = Option.some ci →
      s2.node_req_check true pos2 nr = true) := by
  intro cn pos new_ids old_ids qs
  refine ⟨?_, ?_, ?_⟩
  · intro hne
    unfold Ship.reset
    rw [h]
    dsimp only
    rw [if_pos hne, reset_requeue_eq]
  · intro heq
    unfold Ship.reset
    rw [h]
    dsimp only
    rw [if_neg (show ¬new_ids ≠ old_ids from fun hn => hn heq)]
  · intro s2 pos2 nr ci hc
    unfold Ship.node_req_check
    dsimp only
    simp only [hc]
    cases he : (s2.chunks.getD ci ShipChunk.dummy).nodes.getD
        (s2.get_node_index (pos2 + nr.1)) Option.none with
    | none => rfl
    | some l =>
        simp only [he]
        rfl

/-- Witness for C3: the reset triggered by the concrete placement pushes
cell 0 onto both the collapse queue and records it as was-reset. -/
theorem reset_contract_witness :
    (exShip1.reset exRules).to_collapse = exShip1.to_collapse.push_back 0 ∧
    (exShip1.reset exRules).was_reset = exShip1.was_reset.push_back 0 := by
  have h := (reset_contract exShip1 exRules 0 ⟨[]⟩ (by decide)).1 (by decide)
  rw [h]
  exact ⟨rfl, rfl⟩

/-- Claim C4 (amended): requirement evaluation in `Ship::propergate` (strict
mode).  A block-requirement atom at a position outside every known chunk is
evaluated as if the block there were empty (first conjunct, via
`block_at_or_empty`).  A node requirement in strict mode follows
`node_req_spec_strict` (second conjunct): an out-of-chunk neighbor satisfies
it iff the allowed list holds the empty identity, an in-chunk neighbor whose
admissible set has not been computed ALWAYS satisfies it (third conjunct —
the code does not consult the was-reset set, contrary to the original
claim), and a computed neighbor satisfies it iff its stored candidates meet
the allowed list. -/
theorem requirement_semantics :
    (∀ (s : Ship) (test_pos : IVec3) (id : Nat),
        s.block_req_atom test_pos id = (id == block_at_or_empty s test_pos)) ∧
    (∀ (s : Ship) (pos : IVec3) (nr : IVec3 × List NodeID),
        s.node_req_check false pos nr = node_req_spec_strict s pos nr) ∧
    (∀ (s : Ship) (pos : IVec3) (nr : IVec3 × List NodeID) (ci : Nat),
        s.get_chunk_index (pos + nr.1) = Option.some ci →
        (s.chunks.getD ci ShipChunk.dummy).nodes.getD
          (s.get_node_index (pos + nr.1)) Option.none = Option.none →
        s.node_req_check false pos nr = true) := by
  refine ⟨?_, ?_, ?_⟩
  · intro s test_pos id
    unfold Ship.block_req_atom block_at_or_empty
    cases hc : s.get_chunk_index test_pos with
    | none => rfl
    | some ci => rfl
  · intro s pos nr
    unfold Ship.node_req_check node_req_spec_strict
    dsimp only
    cases hc : s.get_chunk_index (pos + nr.1) with
    | none => simp only [hc]
    | some ci =>
        simp only [hc]
        cases he : (s.chunks.getD ci ShipChunk.dummy).nodes.getD
            (s.get_node_index (pos + nr.1)) Option.none with
        | none => simp only [he]
        | some l =>
            simp only [he]
            rfl
  · intro s pos nr ci hc he
    unfold Ship.node_req_check
    dsimp only
    simp only [hc, he]

/-- Witness for C4: on the concrete ship the uncomputed neighbor at offset
`(0,0,1)` satisfies the strict-mode requirement. -/
theorem requirement_semantics_witness :
    exShipStrict.node_req_check false ⟨0, 0, 0⟩ (⟨0, 0, 1⟩, [exNodeB]) = true :=
  requirement_semantics.2.2 exShipStrict ⟨0, 0, 0⟩ (⟨0, 0, 1⟩, [exNodeB]) 0
    (by decide) (by decide)

/-- Counterexample for C4 as stated: in strict (propagate) mode the
neighbor of cell 0 at offset `(0,0,1)` has an uncomputed admissible set and
is not recorded in the was-reset set, yet the node requirement is satisfied
and the candidate is admitted — the original claim says the requirement
must fail in this situation. -/
theorem strict_mode_accepts_unknown_neighbor :
    exShipStrict.propergate_node_world_index exRulesStrict 0 false =
      [(exNodeA, 1)] ∧
    (exShipStrict.chunks.getD 0 ShipChunk.dummy).nodes.getD
      (exShipStrict.get_node_index ⟨0, 0, 1⟩) Option.none = Option.none ∧
    exShipStrict.was_reset.containsIdx
      (exShipStrict.to_world_node_index 0
        (exShipStrict.get_node_index ⟨0, 0, 1⟩)) = false ∧
    exShipStrict.node_req_check false ⟨0, 0, 0⟩ (⟨0, 0, 1⟩, [exNodeB]) = true :=
  ⟨by decide, by decide, by decide, by decide⟩

/-- Claim C5 (amended): `place_block` returns the bounds error exactly when
the doubled position lies outside every addressable chunk (first conjunct;
nothing is changed since the error is returned before any mutation); it is
a strict no-op when the stored block index equals the new one (second
conjunct); otherwise it writes the new block index and pushes onto the
reset queue the in-chunk affected-by cells of the vacated and of the newly
placed block identity — except that an empty block identity contributes
nothing — and clears the was-reset set; the other queues and all node state
are untouched. -/
theorem place_block_contract (s : Ship) (rules : Rules) (block_pos : IVec3)
    (block_index : Nat) (pos : IVec3)
    (hpos : pos = s.get_node_pos_from_block_pos block_pos) :
    (s.get_chunk_index pos = Option.none →
      s.place_block block_pos block_index rules = Option.none) ∧
    (∀ ci, s.get_chunk_index pos = Option.some ci →
      ((s.chunks.getD ci ShipChunk.dummy).blocks.getD (s.get_block_index pos)
          BLOCK_INDEX_EMPTY = block_index →
        s.place_block block_pos block_index rules = Option.some s) ∧
      ((s.chunks.getD ci ShipChunk.dummy).blocks.getD (s.get_block_index pos)
          BLOCK_INDEX_EMPTY ≠ block_index →
        s.place_block block_pos block_index rules = Option.some
          { (s.update_chunk ci (fun c =>
              { c with
                  blocks := c.blocks.set (s.get_block_index pos) block_index })) with
              to_reset := push_list
                (push_list s.to_reset
                  (block_affected_indices s rules
                    ((s.chunks.getD ci ShipChunk.dummy).blocks.getD
                      (s.get_block_index pos) BLOCK_INDEX_EMPTY) pos))
                (block_affected_indices s rules block_index pos)
              was_reset := IndexQueue.emptyQ })) := by
  subst hpos
  refine ⟨?_, ?_⟩
  · intro hc
    unfold Ship.place_block
    dsimp only
    rw [hc]
  · intro ci hc
    constructor
    · intro heq
      unfold Ship.place_block
      dsimp only
      rw [hc]
      dsimp only
      rw [if_pos (beq_iff_eq.mpr heq)]
    · intro hne
      unfold Ship.place_block
      dsimp only
      rw [hc]
      dsimp only
      rw [if_neg (fun hb => hne (beq_iff_eq.mp hb))]
      rw [push_block_affected_eq, push_block_affected_eq]
      rfl

/-- Witness for C5: an out-of-chunk placement fails with the bounds error,
and placing the block index already present is a no-op. -/
theorem place_block_contract_witness :
    exShip0.place_block ⟨1, 0, 0⟩ 1 exRules = Option.none ∧
    exShip0.place_block ⟨0, 0, 0⟩ 0 exRules = Option.some exShip0 := by
  have h1 := place_block_contract exShip0 exRules ⟨1, 0, 0⟩ 1 ⟨2, 0, 0⟩
    (by decide)
  have h2 := place_block_contract exShip0 exRules ⟨0, 0, 0⟩ 0 ⟨0, 0, 0⟩
    (by decide)
  exact ⟨h1.1 (by decide), (h2.2 0 (by decide)).1 (by decide)⟩

/-- Counterexample for C5 as stated: under `exRulesPlace` the vacated
(empty) block identity has the non-empty in-chunk affected-by set
`[(0,0,0)]`, yet placing block 1 over it pushes nothing onto the reset
queue — the affected-by cells of the vacated identity are not pushed when
that identity is the empty block. -/
theorem place_block_skips_empty_identity :
    ((exShip0.place_block ⟨0, 0, 0⟩ 1 exRulesPlace).getD exShip0).to_reset =
      IndexQueue.mk [] ∧
    (exShip0.chunks.getD 0 ShipChunk.dummy).blocks.getD 0 BLOCK_INDEX_EMPTY =
      BLOCK_INDEX_EMPTY ∧
    exRulesPlace.affected_by_block.getD BLOCK_INDEX_EMPTY [] = [⟨0, 0, 0⟩] ∧
    exShip0.get_chunk_index ⟨0, 0, 0⟩ = Option.some 0 :=
  ⟨by decide, by decide, by decide, by decide⟩

/-- Claim C6 (amended): a cell's identity-bit entry equals the most recent
write among collapse writes and reset clears.  Propagate operations never
write the identity-bit arrays; a reset operation clears the popped cell's
entry to the packed empty value exactly when the recomputed admissible set
changed (otherwise the arrays are untouched); a collapse operation writes
the packed bits of the candidate selected from the stored set.  The
original claim — that the arrays always agree with the last collapse — is
refuted by the reset clear. -/
theorem bits_last_writer :
    (∀ (s : Ship) (rules : Rules),
        (s.propergate rules).chunks.map (fun c => c.node_id_bits) =
          s.chunks.map (fun c => c.node_id_bits)) ∧
    (∀ (s : Ship) (rules : Rules) (w : Nat) (rest : IndexQueue),
        s.to_reset.pop_front = Option.some (w, rest) →
        (s.reset rules).chunks.map (fun c => c.node_id_bits) =
          (if s.propergate_node_world_index rules w true ≠
              (((s.chunks.getD (s.from_world_node_index w).1
                  ShipChunk.dummy).nodes.getD (s.from_world_node_index w).2
                Option.none).getD []) then
            (s.chunks.map (fun c => c.node_id_bits)).set
              (s.from_world_node_index w).1
              ((s.chunks.getD (s.from_world_node_index w).1
                ShipChunk.dummy).node_id_bits.set (s.from_world_node_index w).2
                NodeID.noneID.toBits)
          else s.chunks.map (fun c => c.node_id_bits))) ∧
    (∀ (s : Ship) (w : Nat) (rest : IndexQueue),
        s.to_collapse.pop_front = Option.some (w, rest) →
        s.collapse.chunks.map (fun c => c.node_id_bits) =
          (s.chunks.map (fun c => c.node_id_bits)).set
            (s.from_world_node_index w).1
            ((s.chunks.getD (s.from_world_node_index w).1
              ShipChunk.dummy).node_id_bits.set (s.from_world_node_index w).2
              (collapse_pick
                (((s.chunks.getD (s.from_world_node_index w).1
                    ShipChunk.dummy).nodes.getD (s.from_world_node_index w).2
                  Option.none).getD [])).1.toBits)) := by
  refine ⟨?_, ?_, ?_⟩
  · intro s rules
    unfold Ship.propergate
    cases hp : s.to_propergate.pop_front with
    | none => rfl
    | some pr =>
        obtain ⟨w, rest⟩ := pr
        dsimp only
        split
        · dsimp only [Ship.update_chunk]
          exact map_set_preserve (fun c => c.node_id_bits)
            (fun c => { c with
              nodes := c.nodes.set (s.from_world_node_index w).2
                (Option.some (s.propergate_node_world_index rules w false)) })
            (fun c => rfl) s.chunks (s.from_world_node_index w).1
            ShipChunk.dummy
        · dsimp only [Ship.update_chunk]
          exact map_set_preserve (fun c => c.node_id_bits)
            (fun c => { c with
              nodes := c.nodes.set (s.from_world_node_index w).2
                (Option.some (s.propergate_node_world_index rules w false)) })
            (fun c => rfl) s.chunks (s.from_world_node_index w).1
            ShipChunk.dummy
  · intro s rules w rest h
    unfold Ship.reset
    rw [h]
    dsimp only
    split
    next hcond =>
        dsimp only [Ship.update_chunk]
        rw [List.map_set]
    next hcond =>
        dsimp only [Ship.update_chunk]
        exact map_set_preserve (fun c => c.node_id_bits)
          (fun c => { c with
            nodes := c.nodes.set (s.from_world_node_index w).2
              (Option.some (s.propergate_node_world_index rules w true)) })
          (fun c => rfl) s.chunks (s.from_world_node_index w).1 ShipChunk.dummy
  · intro s w rest h
    unfold Ship.collapse
    rw [h]
    dsimp only [Ship.update_chunk]
    rw [List.map_set]

/-- Witness for C6: applying the collapse conjunct to the concrete chain
state whose collapse queue holds cell 0. -/
theorem bits_last_writer_witness :
    exShip3.collapse.chunks.map (fun c => c.node_id_bits) =
      (exShip3.chunks.map (fun c => c.node_id_bits)).set 0
        ((exShip3.chunks.getD 0 ShipChunk.dummy).node_id_bits.set 0
          (collapse_pick
            (((exShip3.chunks.getD 0 ShipChunk.dummy).nodes.getD 0
              Option.none).getD [])).1.toBits) :=
  bits_last_writer.2.2 exShip3 0 ⟨[]⟩ (by decide)

/-- Counterexample for C6 as stated: in the reachable chain built from a
fresh ship by `place_block((0,0,0),1)` and three tick operations, the last
collapse wrote packed bits 640 at cell 0 (still present in `exShip5`, since
`place_block` does not touch the bit arrays); the subsequent reset clears
the entry to 0 ≠ 640, so after the reset the identity-bit array no longer
equals the value written by the most recent collapse on that cell. -/
theorem reset_clears_bits_written_by_collapse :
    (exShip3.collapse.chunks.getD 0 ShipChunk.dummy).node_id_bits.getD 0 99 =
      640 ∧
    (exShip5.chunks.getD 0 ShipChunk.dummy).node_id_bits.getD 0 99 = 640 ∧
    ((exShip5.reset exRules).chunks.getD 0
      ShipChunk.dummy).node_id_bits.getD 0 99 = 0 ∧
    (640 : Nat) ≠ 0 :=
  ⟨by decide, by decide, by decide, by decide⟩

/-- Claim C8 (amended): for chunk size 32, `get_chunk_pos` equals, on every
component, the floor-division multiple `32 * fdiv p 32` minus one extra
chunk size on negative components (the bit mask already floors in two's
complement; the explicit correction for negative coordinates subtracts a
second chunk).  The original floor-division claim holds only for
non-negative components. -/
theorem get_chunk_pos_is_shifted_floor (p : IVec3) :
    (Ship.new 32).get_chunk_pos p = chunk_pos_code p := by
  have hmask : (Ship.new 32).chunk_pos_mask = ⟨-32, -32, -32⟩ := by decide
  have hvox : (Ship.new 32).chunk_voxel_size = ⟨32, 32, 32⟩ := by decide
  obtain ⟨x, y, z⟩ := p
  simp only [Ship.get_chunk_pos, hmask, hvox, IVec3.land, IVec3.mul_def,
    IVec3.sub_def, chunk_pos_code, IVec3.mk.injEq]
  exact ⟨chunk_comp_32 x, chunk_comp_32 y, chunk_comp_32 z⟩

/-- Counterexample for C8 as stated: at world position `(-1,0,0)` the code
yields chunk position `(-64,0,0)`, while floor-division semantics demand
`(-32,0,0)`. -/
theorem get_chunk_pos_not_floor :
    (Ship.new 32).get_chunk_pos ⟨-1, 0, 0⟩ = ⟨-64, 0, 0⟩ ∧
    chunk_pos_floor ⟨-1, 0, 0⟩ = ⟨-32, 0, 0⟩ ∧
    (Ship.new 32).get_chunk_pos ⟨-1, 0, 0⟩ ≠ chunk_pos_floor ⟨-1, 0, 0⟩ :=
  ⟨by decide, by decide, by decide⟩

/-- The trailing-zero counter evaluates powers of two correctly within its
fuel. -/
theorem trailingZerosAux_two_pow :
    ∀ (fuel k : Nat), k < fuel → trailingZerosAux fuel (2 ^ k) = k := by
  intro fuel
  induction fuel with
  | zero => intro k hk; omega
  | succ f ih =>
      intro k hk
      cases k with
      | zero => rfl
      | succ k2 =>
          have h1 : 2 ^ (k2 + 1) % 2 = 0 := by
            rw [Nat.pow_succ]
            exact Nat.mul_mod_left _ 2
          have h2 : 2 ^ (k2 + 1) / 2 = 2 ^ k2 := by
            rw [Nat.pow_succ]
            exact Nat.mul_div_cancel _ (by omega)
          show (if (2 ^ (k2 + 1) % 2 == 1) = true then 0
            else trailingZerosAux f (2 ^ (k2 + 1) / 2) + 1) = k2 + 1
          rw [h1, h2]
          simp only [Nat.reduceBEq, Bool.false_eq_true, if_false]
          rw [ih k2 (by omega)]

/-- The packed world-node-index width of `Ship::new (2 ^ (k + 1))` is one
more than the exact bit width of the per-chunk node count. -/
theorem ship_new_node_index_bits (k : Nat) (hk : k ≤ 9) :
    (Ship.new (2 ^ (k + 1))).node_index_bits = 3 * k + 4 := by
  show i32TrailingZeros
    ((2 : Int) ^ (k + 1) * 2 ^ (k + 1) * 2 ^ (k + 1)) + 1 = 3 * k + 4
  have hpow : (2 : Int) ^ (k + 1) * 2 ^ (k + 1) * 2 ^ (k + 1) =
      (2 : Int) ^ (3 * k + 3) := by
    rw [← pow_add, ← pow_add]
    congr 1
    ring
  rw [hpow]
  unfold i32TrailingZeros
  have hlt : (2 : Int) ^ (3 * k + 3) < 2 ^ 32 := by
    have : (3 : Nat) * k + 3 < 32 := by omega
    exact pow_lt_pow_right₀ (by norm_num) this
  have hmod : (2 : Int) ^ (3 * k + 3) % 2 ^ 32 = 2 ^ (3 * k + 3) :=
    Int.emod_eq_of_lt (by positivity) hlt
  rw [hmod]
  have htn : ((2 : Int) ^ (3 * k + 3)).toNat = 2 ^ (3 * k + 3) := by
    have : ((2 : Int) ^ (3 * k + 3)) = ((2 ^ (3 * k + 3) : Nat) : Int) := by
      push_cast
      ring
    rw [this, Int.toNat_natCast]
  rw [htn, trailingZerosAux_two_pow 32 (3 * k + 3) (by omega)]

/-- The in-chunk node-index mask of `Ship::new (2 ^ (k + 1))`. -/
theorem ship_new_node_index_mask (k : Nat) :
    (Ship.new (2 ^ (k + 1))).node_index_mask = 2 ^ (3 * k + 3) - 1 := by
  show ((2 : Int) ^ (k + 1) * 2 ^ (k + 1) * 2 ^ (k + 1) - 1).toNat =
    2 ^ (3 * k + 3) - 1
  have hpow : (2 : Int) ^ (k + 1) * 2 ^ (k + 1) * 2 ^ (k + 1) =
      (2 : Int) ^ (3 * k + 3) := by
    rw [← pow_add, ← pow_add]
    congr 1
    ring
  rw [hpow]
  have hcast : (2 : Int) ^ (3 * k + 3) - 1 =
      ((2 ^ (3 * k + 3) - 1 : Nat) : Int) := by
    have h1 : (1 : Nat) ≤ 2 ^ (3 * k + 3) := Nat.one_le_two_pow
    push_cast [Nat.cast_sub h1]
    ring
  rw [hcast, Int.toNat_natCast]

/-- The per-chunk node count of `Ship::new (2 ^ (k + 1))`. -/
theorem ship_new_node_length (k : Nat) :
    (Ship.new (2 ^ (k + 1))).node_length = 2 ^ (3 * k + 3) := by
  show ((2 : Int) ^ (k + 1) * 2 ^ (k + 1) * 2 ^ (k + 1)).toNat =
    2 ^ (3 * k + 3)
  have hpow : (2 : Int) ^ (k + 1) * 2 ^ (k + 1) * 2 ^ (k + 1) =
      (2 : Int) ^ (3 * k + 3) := by
    rw [← pow_add, ← pow_add]
    congr 1
    ring
  rw [hpow]
  have : ((2 : Int) ^ (3 * k + 3)) = ((2 ^ (3 * k + 3) : Nat) : Int) := by
    push_cast
    ring
  rw [this, Int.toNat_natCast]

/-- The 3D decomposition inverts the row-major flattening for in-bound
positions. -/
theorem to_3d_to_1d (px py pz mx my mz : Nat) (h1 : px < mx) (h2 : py < my)
    (_h3 : pz < mz) :
    to_3d (to_1d (px, py, pz) (mx, my, mz)) (mx, my, mz) = (px, py, pz) := by
  have hmx : 0 < mx := Nat.lt_of_le_of_lt (Nat.zero_le px) h1
  have hmy : 0 < my := Nat.lt_of_le_of_lt (Nat.zero_le py) h2
  have hmxy : 0 < mx * my := Nat.mul_pos hmx hmy
  have hlt : py * mx + px < mx * my := by
    have step1 : py * mx + px < (py + 1) * mx := by
      have : (py + 1) * mx = py * mx + mx := by ring
      omega
    have step2 : (py + 1) * mx ≤ my * mx :=
      Nat.mul_le_mul_right mx h2
    have step3 : my * mx = mx * my := Nat.mul_comm my mx
    omega
  have heq : to_1d (px, py, pz) (mx, my, mz) = py * mx + px + mx * my * pz := by
    show pz * mx * my + py * mx + px = _
    ring
  have hz : to_1d (px, py, pz) (mx, my, mz) / (mx * my) = pz := by
    rw [heq, Nat.add_mul_div_left _ _ hmxy, Nat.div_eq_of_lt hlt, Nat.zero_add]
  have hi1 : to_1d (px, py, pz) (mx, my, mz) - pz * mx * my = py * mx + px := by
    have hcomm : pz * mx * my = mx * my * pz := by ring
    omega
  have hy : (py * mx + px) / mx = py := by
    have hcomm : py * mx + px = px + mx * py := by ring
    rw [hcomm, Nat.add_mul_div_left _ _ hmx, Nat.div_eq_of_lt h1, Nat.zero_add]
  have hx : (py * mx + px) % mx = px := by
    have hcomm : py * mx + px = px + mx * py := by ring
    rw [hcomm, Nat.add_mul_mod_self_left, Nat.mod_eq_of_lt h1]
  unfold to_3d
  dsimp only
  rw [hz, hi1, hy, hx]

/-- Unpacking a packed world node index recovers the chunk and node
indices. -/
theorem world_node_index_round_trip (k c n : Nat) (hk : k ≤ 9)
    (hn : n < (Ship.new (2 ^ (k + 1))).node_length) :
    (Ship.new (2 ^ (k + 1))).from_world_node_index
      ((Ship.new (2 ^ (k + 1))).to_world_node_index c n) = (c, n) := by
  rw [ship_new_node_length] at hn
  unfold Ship.from_world_node_index Ship.to_world_node_index
  rw [ship_new_node_index_bits k hk, ship_new_node_index_mask k]
  have hn2 : n < 2 ^ (3 * k + 4) := by
    have : (2 : Nat) ^ (3 * k + 3) ≤ 2 ^ (3 * k + 4) :=
      Nat.pow_le_pow_right (by omega) (by omega)
    omega
  have hc1 : (n + c <<< (3 * k + 4)) >>> (3 * k + 4) = c := by
    rw [Nat.shiftLeft_eq, Nat.shiftRight_eq_div_pow, Nat.mul_comm c]
    rw [Nat.add_mul_div_left _ _ (Nat.two_pow_pos (3 * k + 4))]
    rw [Nat.div_eq_of_lt hn2, Nat.zero_add]
  have hc2 : (n + c <<< (3 * k + 4)) &&& (2 ^ (3 * k + 3) - 1) = n := by
    rw [Nat.shiftLeft_eq, Nat.and_pow_two_sub_one_eq_mod]
    have hsplit : c * 2 ^ (3 * k + 4) = c * 2 * 2 ^ (3 * k + 3) := by
      rw [Nat.pow_succ]
      ring
    rw [hsplit, Nat.add_mul_mod_self_right, Nat.mod_eq_of_lt hn]
  rw [hc1, hc2]

/-- Claim C9 (confirmed): the index math round-trips.  For every ship built
by `Ship::new` at a power-of-two chunk size (up to 1024, so the `i32` node
count does not overflow), unpacking a packed world node index recovers the
chunk index and any in-chunk node index below the node count; and for every
position within bounds of extents `max`, the row-major flattening `to_1d`
followed by `to_3d` is the identity. -/
theorem index_math_round_trips :
    (∀ (k c n : Nat), k ≤ 9 → n < (Ship.new (2 ^ (k + 1))).node_length →
      (Ship.new (2 ^ (k + 1))).from_world_node_index
        ((Ship.new (2 ^ (k + 1))).to_world_node_index c n) = (c, n)) ∧
    (∀ px py pz mx my mz : Nat, px < mx → py < my → pz < mz →
      to_3d (to_1d (px, py, pz) (mx, my, mz)) (mx, my, mz) = (px, py, pz)) :=
  ⟨fun k c n hk hn => world_node_index_round_trip k c n hk hn,
    fun px py pz mx my mz h1 h2 h3 => to_3d_to_1d px py pz mx my mz h1 h2 h3⟩

/-- Witness for C9: both round trips at concrete values. -/
theorem index_math_round_trips_witness :
    (Ship.new (2 ^ (0 + 1))).from_world_node_index
      ((Ship.new (2 ^ (0 + 1))).to_world_node_index 3 5) = (3, 5) ∧
    to_3d (to_1d (1, 2, 3) (2, 3, 4)) (2, 3, 4) = (1, 2, 3) :=
  ⟨index_math_round_trips.1 0 3 5 (by decide) (by decide),
    index_math_round_trips.2 1 2 3 2 3 4 (by decide) (by decide) (by decide)⟩

/-- Claim C10 (confirmed): when several stored candidates share the maximal
priority, the collapse selection (`max_by` over the stored list) picks the
LAST maximal candidate in stored order: the list splits around the chosen
element so that everything before it has priority at most the chosen one
and everything strictly after it has strictly smaller priority.  Being a
function of the stored list alone, the choice involves no randomness and no
hash-iteration order. -/
theorem collapse_tie_break_last (l : List (NodeID × Nat)) (h : l ≠ []) :
    ∃ l1 l2,
      l = l1 ++ collapse_pick l :: l2 ∧
      (∀ e ∈ l1, e.2 ≤ (collapse_pick l).2) ∧
      (∀ e ∈ l2, e.2 < (collapse_pick l).2) :=
  collapse_pick_split l h

/-- Witness for C10: on a two-candidate tie the characterization applies
(the fold picks the second candidate). -/
theorem collapse_tie_break_last_witness :
    ∃ l1 l2,
      ([(exNodeA, 1), (exNodeB, 1)] : List (NodeID × Nat)) =
        l1 ++ collapse_pick [(exNodeA, 1), (exNodeB, 1)] :: l2 ∧
      (∀ e ∈ l1, e.2 ≤ (collapse_pick [(exNodeA, 1), (exNodeB, 1)]).2) ∧
      (∀ e ∈ l2, e.2 < (collapse_pick [(exNodeA, 1), (exNodeB, 1)]).2) :=
  collapse_tie_break_last [(exNodeA, 1), (exNodeB, 1)] (by decide)
